import Mathlib

/-!
Shallow embedding of the RGB core of the `palette` colour library.

The repository provides `src/palette/src/rgb.rs` (the RGB type aliases, the
space/standard trait composition and the cross-standard `From` conversions).
The submodules it relies on (`rgb/rgb.rs`, `rgb/packed.rs`, the `encoding`
module with the concrete transfer functions, and the `Component` conversion
machinery) are declared and used there but their sources are not part of the
repository snapshot; those operations are modelled from the specification, as
marked by their doc comments.  Machine floating point is modelled by the real
numbers; 8-bit integer components are modelled by integers.
-/

noncomputable section

namespace Palette

/-- Modelled from the spec: the sRGB transfer function `encode` direction
(linear to non-linear), piecewise with a linear segment below the threshold
0.0031308 and a power-law segment elsewhere, with the published sRGB
constants.  The corresponding source (`encoding::Srgb::from_linear`) is not
in the repository snapshot. -/
def srgb_encode (x : ℝ) : ℝ :=
  if x ≤ 0.0031308 then 12.92 * x else 1.055 * x ^ ((1 : ℝ) / 2.4) - 0.055

/-- Modelled from the spec: the sRGB transfer function `decode` direction
(non-linear to linear), piecewise with threshold 0.04045.  The corresponding
source (`encoding::Srgb::into_linear`) is not in the repository snapshot. -/
def srgb_decode (x : ℝ) : ℝ :=
  if x ≤ 0.04045 then x / 12.92 else ((x + 0.055) / 1.055) ^ (2.4 : ℝ)

/-- Modelled from the spec: plain gamma transfer function with exponent 2.2,
encode direction: `encode x = x ^ (1 / 2.2)`. -/
def gamma_encode (x : ℝ) : ℝ := x ^ ((1 : ℝ) / 2.2)

/-- Modelled from the spec: plain gamma transfer function with exponent 2.2,
decode direction: `decode x = x ^ 2.2`. -/
def gamma_decode (x : ℝ) : ℝ := x ^ (2.2 : ℝ)

/-- A transfer function: a paired encode (`from_linear`) and decode
(`into_linear`) numeric map, mirroring the `TransferFn` trait. -/
structure TransferFn where
  from_linear : ℝ → ℝ
  into_linear : ℝ → ℝ

/-- The sRGB standard's transfer function pair. -/
def srgbTransfer : TransferFn := ⟨srgb_encode, srgb_decode⟩

/-- The gamma-2.2 transfer function pair. -/
def gammaTransfer : TransferFn := ⟨gamma_encode, gamma_decode⟩

/-- Modelled from the spec: the linear "transfer function" is the identity
in both directions (`Linear` encoding in the source). -/
def linearTransfer : TransferFn := ⟨fun x => x, fun x => x⟩

/-- A Yxy tristimulus triple, the resolution target of primaries and white
points. -/
structure Yxy where
  x : ℝ
  y : ℝ
  luma : ℝ

/-- A set of red, green and blue primaries, each resolvable to a Yxy triple
(the `Primaries` trait of `rgb.rs`). -/
structure Primaries where
  red : Yxy
  green : Yxy
  blue : Yxy

/-- A white point, resolvable to a tristimulus triple (the `WhitePoint`
trait). -/
structure WhitePoint where
  white : Yxy

/-- An RGB space: a set of primaries and a white point (the `RgbSpace`
trait of `rgb.rs`). -/
structure RgbSpace where
  primaries : Primaries
  whitePoint : WhitePoint

/-- An RGB standard: an RGB space and a transfer function (the
`RgbStandard` trait of `rgb.rs`). -/
structure RgbStandard where
  space : RgbSpace
  transferFn : TransferFn

/-- The generic impl `RgbSpace for (P, W)` of `rgb.rs` lines 117-120: any
(primaries, white point) pair is a space. -/
def rgbSpace_of_pair (p : Primaries) (w : WhitePoint) : RgbSpace := ⟨p, w⟩

/-- The generic impl `RgbStandard for (S, T)` of `rgb.rs` lines 98-101: any
(space, transfer function) pair is a standard. -/
def rgbStandard_of_pair (s : RgbSpace) (t : TransferFn) : RgbStandard := ⟨s, t⟩

/-- The generic impl `RgbStandard for (P, W, T)` of `rgb.rs` lines 103-106:
any (primaries, white point, transfer function) triple is a standard whose
space is the pair (P, W). -/
def rgbStandard_of_triple (p : Primaries) (w : WhitePoint) (t : TransferFn) :
    RgbStandard :=
  ⟨rgbSpace_of_pair p w, t⟩

/-- Modelled from the spec: widening component conversion from an 8-bit
integer component to a floating component, exact scaling by the integer
maximum 255 (the `FromComponent` machinery is not in the repository
snapshot). -/
def u8_to_float (v : ℤ) : ℝ := (v : ℝ) / 255

/-- Modelled from the spec: narrowing component conversion from a floating
component to an 8-bit integer component, scaling by 255 and rounding to
nearest (not truncating), with no clamping. -/
def float_to_u8 (x : ℝ) : ℤ := round (x * 255)

/-- Modelled from the spec: conversion between two floating component types
is identity-like, both using the 0..1 convention. -/
def float_to_float (x : ℝ) : ℝ := x

/-- The RGB colour container: three components (the `Rgb` struct; its source
module `rgb/rgb.rs` is not in the repository snapshot, so the container is
modelled from the spec's data model). -/
structure Rgb (T : Type) where
  red : T
  green : T
  blue : T

/-- The RGBA colour container: three colour components plus alpha (the
`Rgba` alias / `Alpha` wrapper, modelled from the spec's data model). -/
structure Rgba (T : Type) where
  red : T
  green : T
  blue : T
  alpha : T

/-- Map a function over the three colour components. -/
def Rgb.mapc {T U : Type} (f : T → U) (c : Rgb T) : Rgb U :=
  ⟨f c.red, f c.green, f c.blue⟩

/-- Modelled from the spec: `Rgb::from_linear` applies the standard's encode
direction to every colour component. -/
def Rgb.from_linear (tf : TransferFn) (c : Rgb ℝ) : Rgb ℝ :=
  c.mapc tf.from_linear

/-- Modelled from the spec: `Rgb::into_linear` applies the standard's decode
direction to every colour component. -/
def Rgb.into_linear (tf : TransferFn) (c : Rgb ℝ) : Rgb ℝ :=
  c.mapc tf.into_linear

/-- Modelled from the spec: `into_format` between two floating component
types converts every component with the identity-like float conversion. -/
def Rgb.into_format_float (c : Rgb ℝ) : Rgb ℝ := c.mapc float_to_float

/-- Modelled from the spec: `from_format` between two floating component
types, the dual of `into_format`. -/
def Rgb.from_format_float (c : Rgb ℝ) : Rgb ℝ := c.mapc float_to_float

/-- Modelled from the spec: `into_format` from a floating component type to
the 8-bit integer component type. -/
def Rgb.into_format_u8 (c : Rgb ℝ) : Rgb ℤ := c.mapc float_to_u8

/-- Modelled from the spec: `from_format` from the 8-bit integer component
type to a floating component type. -/
def Rgb.from_format_u8 (c : Rgb ℤ) : Rgb ℝ := c.mapc u8_to_float

/-- The conversion `From Srgb for LinSrgb` of `rgb.rs` lines 143-151:
`srgb.into_linear().into_format()`. -/
def linSrgb_from_srgb (c : Rgb ℝ) : Rgb ℝ :=
  (Rgb.into_linear srgbTransfer c).into_format_float

/-- The conversion `From LinSrgb for Srgb` of `rgb.rs` lines 132-141:
`Srgb::from_linear(lin_srgb)` then `.into_format()`. -/
def srgb_from_linSrgb (c : Rgb ℝ) : Rgb ℝ :=
  (Rgb.from_linear srgbTransfer c).into_format_float

/-- The conversion `From LinSrgb for Srgb` with an 8-bit integer target
component type: `Srgb::from_linear(lin_srgb)` then `.into_format()`. -/
def srgb_u8_from_linSrgb (c : Rgb ℝ) : Rgb ℤ :=
  (Rgb.from_linear srgbTransfer c).into_format_u8

/-- Modelled from the spec: the alpha variant of `from_linear` mirrors the
non-alpha operation and passes alpha through unmodified. -/
def Rgba.from_linear (tf : TransferFn) (c : Rgba ℝ) : Rgba ℝ :=
  ⟨tf.from_linear c.red, tf.from_linear c.green, tf.from_linear c.blue,
    c.alpha⟩

/-- Modelled from the spec: the alpha variant of `into_linear` mirrors the
non-alpha operation and passes alpha through unmodified. -/
def Rgba.into_linear (tf : TransferFn) (c : Rgba ℝ) : Rgba ℝ :=
  ⟨tf.into_linear c.red, tf.into_linear c.green, tf.into_linear c.blue,
    c.alpha⟩

/-- Modelled from the spec: the alpha variant of float-to-float
`into_format` converts every component, alpha included, with the plain
component format conversion. -/
def Rgba.into_format_float (c : Rgba ℝ) : Rgba ℝ :=
  ⟨float_to_float c.red, float_to_float c.green, float_to_float c.blue,
    float_to_float c.alpha⟩

/-- Modelled from the spec: the alpha variant of float-to-u8 `into_format`
converts every component, alpha included, with the plain component format
conversion. -/
def Rgba.into_format_u8 (c : Rgba ℝ) : Rgba ℤ :=
  ⟨float_to_u8 c.red, float_to_u8 c.green, float_to_u8 c.blue,
    float_to_u8 c.alpha⟩

/-- The conversion `From LinSrgba for Srgba` of `rgb.rs` lines 165-174:
`Srgba::from_linear(lin_srgba)` then `.into_format()`. -/
def srgba_from_linSrgba (c : Rgba ℝ) : Rgba ℝ :=
  (Rgba.from_linear srgbTransfer c).into_format_float

/-- The conversion `From Srgba for LinSrgba` of `rgb.rs` lines 186-193:
`srgba.into_linear().into_format()`. -/
def linSrgba_from_srgba (c : Rgba ℝ) : Rgba ℝ :=
  (Rgba.into_linear srgbTransfer c).into_format_float

/-- The colour part of an RGBA value (the `color` field of the `Alpha`
wrapper). -/
def colorPart (c : Rgba ℝ) : Rgb ℝ :=
  ⟨c.red, c.green, c.blue⟩

/-- Modelled from the spec: the `Into` conversion from an alpha-less colour
to its alpha-carrying variant fills alpha with the component type's maximum
value (1 for floating components), i.e. fully opaque. -/
def rgb_to_rgba (c : Rgb ℝ) : Rgba ℝ :=
  ⟨c.red, c.green, c.blue, 1⟩

/-- The conversion `From LinSrgb for Srgba` of `rgb.rs` lines 153-163:
`Srgb::from_linear(lin_srgb)`, then `Srgb::from_format(non_lin)`, then
`.into()`. -/
def srgba_from_linSrgb (c : Rgb ℝ) : Rgba ℝ :=
  rgb_to_rgba ((Rgb.from_linear srgbTransfer c).from_format_float)

/-- The conversion `From Srgb for LinSrgba` of `rgb.rs` lines 176-184:
`srgb.into_linear().into_format().into()`. -/
def linSrgba_from_srgb (c : Rgb ℝ) : Rgba ℝ :=
  rgb_to_rgba ((Rgb.into_linear srgbTransfer c).into_format_float)

/-- Written from the spec's words, for comparison with the source's
conversion path: standard-to-standard conversion is defined as decoding the
source to its linear form with the source standard's transfer function and
re-encoding with the target standard's transfer function. -/
def convert_via_linear (src tgt : TransferFn) (c : Rgb ℝ) : Rgb ℝ :=
  Rgb.from_linear tgt (Rgb.into_linear src c)

/-- Modelled from the spec: the supported channel orders of the packed
layout (`rgb/packed.rs` is not in the repository snapshot). -/
inductive RgbChannels where
  | rgba
  | argb
  | bgra
  | abgr

/-- Modelled from the spec: packing four 8-bit channels into a 32-bit
integer by bit placement in the chosen channel order, most significant lane
first. -/
def pack4 (o : RgbChannels) (r g b a : ℕ) : ℕ :=
  match o with
  | .rgba => ((r * 256 + g) * 256 + b) * 256 + a
  | .argb => ((a * 256 + r) * 256 + g) * 256 + b
  | .bgra => ((b * 256 + g) * 256 + r) * 256 + a
  | .abgr => ((a * 256 + b) * 256 + g) * 256 + r

/-- Modelled from the spec: unpacking a 32-bit integer back into the four
8-bit channels of the chosen channel order. -/
def unpack4 (o : RgbChannels) (p : ℕ) : ℕ × ℕ × ℕ × ℕ :=
  let c0 := p / 16777216 % 256
  let c1 := p / 65536 % 256
  let c2 := p / 256 % 256
  let c3 := p % 256
  match o with
  | .rgba => (c0, c1, c2, c3)
  | .argb => (c1, c2, c3, c0)
  | .bgra => (c2, c1, c0, c3)
  | .abgr => (c3, c2, c1, c0)

/-- Modelled from the spec: packing an alpha-less triple goes through the
alpha-carrying form with the maximum 8-bit alpha 255. -/
def pack_rgb (o : RgbChannels) (r g b : ℕ) : ℕ := pack4 o r g b 255

/-- Modelled from the spec: unpacking to an alpha-less triple drops the
alpha lane. -/
def unpack_rgb (o : RgbChannels) (p : ℕ) : ℕ × ℕ × ℕ :=
  let q := unpack4 o p
  (q.1, q.2.1, q.2.2.1)

/-- The concrete colour of the readme example (`readme_examples.rs` line 7):
`Srgb::new(1.0, 0.76, 0.27)`. -/
def readme_rgb : Rgb ℝ := ⟨1, 0.76, 0.27⟩

/-! Helper lemmas about the rational powers 2.4 = 12/5 and 1/2.4 = 5/12. -/

lemma pow12_rpow (a : ℝ) (ha : 0 ≤ a) :
    (a ^ ((1 : ℝ) / 2.4)) ^ (12 : ℕ) = a ^ (5 : ℕ) := by
  rw [← Real.rpow_natCast (a ^ ((1 : ℝ) / 2.4)) 12, ← Real.rpow_mul ha,
    ← Real.rpow_natCast a 5]
  norm_num

lemma pow5_rpow (a : ℝ) (ha : 0 ≤ a) :
    (a ^ (2.4 : ℝ)) ^ (5 : ℕ) = a ^ (12 : ℕ) := by
  rw [← Real.rpow_natCast (a ^ (2.4 : ℝ)) 5, ← Real.rpow_mul ha,
    ← Real.rpow_natCast a 12]
  norm_num

lemma rpow512_le {a b : ℝ} (ha : 0 ≤ a) (hb : 0 ≤ b)
    (h : a ^ (5 : ℕ) ≤ b ^ (12 : ℕ)) : a ^ ((1 : ℝ) / 2.4) ≤ b := by
  have h12 : (a ^ ((1 : ℝ) / 2.4)) ^ (12 : ℕ) ≤ b ^ (12 : ℕ) := by
    rw [pow12_rpow a ha]; exact h
  refine le_of_pow_le_pow_left₀ ?_ hb h12
  norm_num

lemma le_rpow512 {a b : ℝ} (ha : 0 ≤ a)
    (h : b ^ (12 : ℕ) ≤ a ^ (5 : ℕ)) : b ≤ a ^ ((1 : ℝ) / 2.4) := by
  have h12 : b ^ (12 : ℕ) ≤ (a ^ ((1 : ℝ) / 2.4)) ^ (12 : ℕ) := by
    rw [pow12_rpow a ha]; exact h
  refine le_of_pow_le_pow_left₀ ?_ (Real.rpow_nonneg ha _) h12
  norm_num

lemma lt_rpow245 {a b : ℝ} (ha : 0 ≤ a)
    (h : b ^ (5 : ℕ) < a ^ (12 : ℕ)) : b < a ^ (2.4 : ℝ) := by
  have h5 : b ^ (5 : ℕ) < (a ^ (2.4 : ℝ)) ^ (5 : ℕ) := by
    rw [pow5_rpow a ha]; exact h
  exact lt_of_pow_lt_pow_left₀ 5 (Real.rpow_nonneg ha _) h5

lemma rpow_cancel_24 {x : ℝ} (hx : 0 ≤ x) :
    (x ^ ((1 : ℝ) / 2.4)) ^ (2.4 : ℝ) = x := by
  rw [← Real.rpow_mul hx, show (1 : ℝ) / 2.4 * 2.4 = 1 by norm_num,
    Real.rpow_one]

lemma rpow_cancel_42 {x : ℝ} (hx : 0 ≤ x) :
    (x ^ (2.4 : ℝ)) ^ ((1 : ℝ) / 2.4) = x := by
  rw [← Real.rpow_mul hx, show (2.4 : ℝ) * (1 / 2.4) = 1 by norm_num,
    Real.rpow_one]

lemma rpow_cancel_22 {x : ℝ} (hx : 0 ≤ x) :
    (x ^ ((1 : ℝ) / 2.2)) ^ (2.2 : ℝ) = x := by
  rw [← Real.rpow_mul hx, show (1 : ℝ) / 2.2 * 2.2 = 1 by norm_num,
    Real.rpow_one]

lemma rpow_cancel_22r {x : ℝ} (hx : 0 ≤ x) :
    (x ^ (2.2 : ℝ)) ^ ((1 : ℝ) / 2.2) = x := by
  rw [← Real.rpow_mul hx, show (2.2 : ℝ) * (1 / 2.2) = 1 by norm_num,
    Real.rpow_one]

/-- Above the decoding threshold the sRGB decode and encode branches match,
so re-encoding a decoded value is exact. -/
lemma srgb_encode_decode_exact {y : ℝ} (hy : 0.04045 < y) :
    srgb_encode (srgb_decode y) = y := by
  have hy40 : ¬(y ≤ 0.04045) := not_le.mpr hy
  have hu0 : (0 : ℝ) ≤ (y + 0.055) / 1.055 :=
    div_nonneg (by linarith) (by norm_num)
  have hub : (1909 : ℝ) / 21100 < (y + 0.055) / 1.055 := by
    rw [div_lt_div_iff₀ (by norm_num) (by norm_num)]
    linarith
  have ht : (0.0031308 : ℝ) < ((y + 0.055) / 1.055) ^ (2.4 : ℝ) := by
    have h1 : (0.0031308 : ℝ) < ((1909 : ℝ) / 21100) ^ (2.4 : ℝ) :=
      lt_rpow245 (by norm_num) (by norm_num)
    have h2 : ((1909 : ℝ) / 21100) ^ (2.4 : ℝ) ≤
        ((y + 0.055) / 1.055) ^ (2.4 : ℝ) :=
      Real.rpow_le_rpow (by norm_num) hub.le (by norm_num)
    linarith
  unfold srgb_decode srgb_encode
  rw [if_neg hy40, if_neg (not_le.mpr ht), rpow_cancel_42 hu0]
  have h3 : 1.055 * ((y + 0.055) / 1.055) = y + 0.055 := by
    field_simp
  rw [h3]
  ring

/-- Decoding then re-encoding with the sRGB curve moves a point of the
linear branch nowhere and a point of the power branch nowhere; the only
deviation is the tiny threshold-mismatch band, bounded well within 1e-5. -/
lemma srgb_decode_encode_close {x : ℝ} (h0 : 0 ≤ x) :
    |srgb_decode (srgb_encode x) - x| ≤ 1e-5 := by
  by_cases hx : x ≤ 0.0031308
  · have henc : srgb_encode x = 12.92 * x := by
      unfold srgb_encode; rw [if_pos hx]
    have hb : (12.92 * x : ℝ) ≤ 0.04045 := by linarith
    have hdec : srgb_decode (12.92 * x) = 12.92 * x / 12.92 := by
      unfold srgb_decode; rw [if_pos hb]
    rw [henc, hdec, mul_div_cancel_left₀ x (by norm_num : (12.92 : ℝ) ≠ 0),
      sub_self, abs_zero]
    norm_num
  · push_neg at hx
    have henc : srgb_encode x = 1.055 * x ^ ((1 : ℝ) / 2.4) - 0.055 := by
      unfold srgb_encode; rw [if_neg (not_le.mpr hx)]
    have ht_low : (0.09047 : ℝ) ≤ x ^ ((1 : ℝ) / 2.4) := by
      have ha : (0.09047 : ℝ) ≤ (0.0031308 : ℝ) ^ ((1 : ℝ) / 2.4) :=
        le_rpow512 (by norm_num) (by norm_num)
      have hm : (0.0031308 : ℝ) ^ ((1 : ℝ) / 2.4) ≤ x ^ ((1 : ℝ) / 2.4) :=
        Real.rpow_le_rpow (by norm_num) hx.le (by norm_num)
      linarith
    by_cases he : 1.055 * x ^ ((1 : ℝ) / 2.4) - 0.055 ≤ 0.04045
    · have hdec : srgb_decode (1.055 * x ^ ((1 : ℝ) / 2.4) - 0.055) =
          (1.055 * x ^ ((1 : ℝ) / 2.4) - 0.055) / 12.92 := by
        unfold srgb_decode; rw [if_pos he]
      have hx_up : x ≤ 0.0031315 := by
        by_contra hcon
        push_neg at hcon
        have h2 : (1909 : ℝ) / 21100 < x ^ ((1 : ℝ) / 2.4) := by
          have ha : (1909 : ℝ) / 21100 ≤ (0.0031315 : ℝ) ^ ((1 : ℝ) / 2.4) :=
            le_rpow512 (by norm_num) (by norm_num)
          have hm : (0.0031315 : ℝ) ^ ((1 : ℝ) / 2.4) < x ^ ((1 : ℝ) / 2.4) :=
            Real.rpow_lt_rpow (by norm_num) hcon (by norm_num)
          linarith
        have h3 : (0.04045 : ℝ) < 1.055 * x ^ ((1 : ℝ) / 2.4) - 0.055 := by
          linarith
        exact absurd h3 (not_lt.mpr he)
      have hE_low : (0.04044585 : ℝ) ≤ 1.055 * x ^ ((1 : ℝ) / 2.4) - 0.055 := by
        linarith
      have hr_low : (0.0031304 : ℝ) ≤
          (1.055 * x ^ ((1 : ℝ) / 2.4) - 0.055) / 12.92 := by
        have h5 : (0.04044585 : ℝ) / 12.92 ≤
            (1.055 * x ^ ((1 : ℝ) / 2.4) - 0.055) / 12.92 :=
          (div_le_div_iff_of_pos_right (by norm_num)).mpr hE_low
        have h6 : (0.0031304 : ℝ) ≤ (0.04044585 : ℝ) / 12.92 := by norm_num
        linarith
      have hr_up : (1.055 * x ^ ((1 : ℝ) / 2.4) - 0.055) / 12.92 ≤
          (0.003130805 : ℝ) := by
        have h5 : (1.055 * x ^ ((1 : ℝ) / 2.4) - 0.055) / 12.92 ≤
            (0.04045 : ℝ) / 12.92 :=
          (div_le_div_iff_of_pos_right (by norm_num)).mpr he
        have h6 : (0.04045 : ℝ) / 12.92 ≤ (0.003130805 : ℝ) := by norm_num
        linarith
      rw [henc, hdec, abs_le]
      constructor
      · linarith
      · linarith
    · have hdec : srgb_decode (1.055 * x ^ ((1 : ℝ) / 2.4) - 0.055) =
          ((1.055 * x ^ ((1 : ℝ) / 2.4) - 0.055 + 0.055) / 1.055) ^ (2.4 : ℝ) := by
        unfold srgb_decode; rw [if_neg he]
      have harg : (1.055 * x ^ ((1 : ℝ) / 2.4) - 0.055 + 0.055) / 1.055 =
          x ^ ((1 : ℝ) / 2.4) := by
        have h4 : 1.055 * x ^ ((1 : ℝ) / 2.4) - 0.055 + 0.055 =
            1.055 * x ^ ((1 : ℝ) / 2.4) := by ring
        rw [h4, mul_div_cancel_left₀ _ (by norm_num : (1.055 : ℝ) ≠ 0)]
      rw [henc, hdec, harg, rpow_cancel_24 h0, sub_self, abs_zero]
      norm_num

/-- Encoding then decoding with the sRGB curve is exact above the decode
threshold and deviates only in the tiny threshold-mismatch band below it,
bounded well within 1e-5. -/
lemma srgb_encode_decode_close {x : ℝ} (h0 : 0 ≤ x) :
    |srgb_encode (srgb_decode x) - x| ≤ 1e-5 := by
  by_cases hy : x ≤ 0.04045
  · have hdec : srgb_decode x = x / 12.92 := by
      unfold srgb_decode; rw [if_pos hy]
    by_cases ht : x / 12.92 ≤ 0.0031308
    · have henc : srgb_encode (x / 12.92) = 12.92 * (x / 12.92) := by
        unfold srgb_encode; rw [if_pos ht]
      rw [hdec, henc, mul_comm,
        div_mul_cancel₀ x (by norm_num : (12.92 : ℝ) ≠ 0), sub_self, abs_zero]
      norm_num
    · push_neg at ht
      have henc : srgb_encode (x / 12.92) =
          1.055 * (x / 12.92) ^ ((1 : ℝ) / 2.4) - 0.055 := by
        unfold srgb_encode; rw [if_neg (not_le.mpr ht)]
      have hs_low : (0.09047 : ℝ) ≤ (x / 12.92) ^ ((1 : ℝ) / 2.4) := by
        have ha : (0.09047 : ℝ) ≤ (0.0031308 : ℝ) ^ ((1 : ℝ) / 2.4) :=
          le_rpow512 (by norm_num) (by norm_num)
        have hm : (0.0031308 : ℝ) ^ ((1 : ℝ) / 2.4) ≤
            (x / 12.92) ^ ((1 : ℝ) / 2.4) :=
          Real.rpow_le_rpow (by norm_num) ht.le (by norm_num)
        linarith
      have hs_up : (x / 12.92) ^ ((1 : ℝ) / 2.4) ≤ 0.09048 := by
        have hm : (x / 12.92) ^ ((1 : ℝ) / 2.4) ≤
            ((0.04045 : ℝ) / 12.92) ^ ((1 : ℝ) / 2.4) :=
          Real.rpow_le_rpow (by linarith)
            ((div_le_div_iff_of_pos_right (by norm_num)).mpr hy) (by norm_num)
        have ha : ((0.04045 : ℝ) / 12.92) ^ ((1 : ℝ) / 2.4) ≤ 0.09048 :=
          rpow512_le (by norm_num) (by norm_num) (by norm_num)
        linarith
      have ht2 := ht
      rw [lt_div_iff₀ (by norm_num : (0 : ℝ) < 12.92)] at ht2
      have hx_low : (0.040449936 : ℝ) < x := by linarith
      rw [hdec, henc, abs_le]
      constructor
      · linarith
      · linarith
  · push_neg at hy
    rw [srgb_encode_decode_exact hy, sub_self, abs_zero]
    norm_num

/-- The pure gamma-2.2 transfer function round trips exactly on the
nonnegative reals. -/
lemma gamma_roundtrip_exact {x : ℝ} (h0 : 0 ≤ x) :
    gamma_decode (gamma_encode x) = x ∧ gamma_encode (gamma_decode x) = x := by
  unfold gamma_encode gamma_decode
  exact ⟨rpow_cancel_22 h0, rpow_cancel_22r h0⟩

/-- C1: for every x in the unit interval, decode then encode and encode
then decode are within 1e-5 of x, for both the sRGB curve and the
gamma-2.2 curve. -/
theorem transfer_roundtrip (x : ℝ) (h0 : 0 ≤ x) (h1 : x ≤ 1) :
    |srgb_decode (srgb_encode x) - x| ≤ 1e-5 ∧
    |srgb_encode (srgb_decode x) - x| ≤ 1e-5 ∧
    |gamma_decode (gamma_encode x) - x| ≤ 1e-5 ∧
    |gamma_encode (gamma_decode x) - x| ≤ 1e-5 := by
  refine ⟨srgb_decode_encode_close h0, srgb_encode_decode_close h0, ?_, ?_⟩
  · rw [(gamma_roundtrip_exact h0).1, sub_self, abs_zero]; norm_num
  · rw [(gamma_roundtrip_exact h0).2, sub_self, abs_zero]; norm_num

/-- Witness for C1 at the concrete input 1. -/
theorem transfer_roundtrip_witness :
    |srgb_decode (srgb_encode 1) - 1| ≤ 1e-5 ∧
    |srgb_encode (srgb_decode 1) - 1| ≤ 1e-5 ∧
    |gamma_decode (gamma_encode 1) - 1| ≤ 1e-5 ∧
    |gamma_encode (gamma_decode 1) - 1| ≤ 1e-5 :=
  transfer_roundtrip 1 (by norm_num) (by norm_num)

/-- C2: converting between two different RGB standards equals the
composition decode-with-the-source-transfer-function then
re-encode-with-the-target-transfer-function (with format conversion
applied), with no direct non-linear-to-non-linear shortcut path. -/
theorem cross_standard_via_linear (c : Rgb ℝ) :
    srgb_from_linSrgb c = convert_via_linear linearTransfer srgbTransfer c ∧
    linSrgb_from_srgb c = convert_via_linear srgbTransfer linearTransfer c ∧
    srgb_u8_from_linSrgb c =
      Rgb.into_format_u8 (convert_via_linear linearTransfer srgbTransfer c) :=
  ⟨rfl, rfl, rfl⟩

/-- C3: every RGBA conversion of the conversion core leaves the alpha
component exactly equal to the input alpha; no transfer function touches
alpha, and format conversion applies only the plain component conversion to
it. -/
theorem alpha_passthrough (tf : TransferFn) (c : Rgba ℝ) :
    (Rgba.from_linear tf c).alpha = c.alpha ∧
    (Rgba.into_linear tf c).alpha = c.alpha ∧
    (Rgba.into_format_float c).alpha = c.alpha ∧
    (Rgba.into_format_u8 c).alpha = float_to_u8 c.alpha ∧
    (srgba_from_linSrgba c).alpha = c.alpha ∧
    (linSrgba_from_srgba c).alpha = c.alpha :=
  ⟨rfl, rfl, rfl, rfl, rfl, rfl⟩

/-- C4: any (primaries, white point) pair is a space, any (space, transfer
function) pair and any (primaries, white point, transfer function) triple
are standards, and the generically composed standard resolves its space,
primaries, white point and transfer function exactly as a hand-written
standard built from the same three pieces. -/
theorem standard_composition (p : Primaries) (w : WhitePoint)
    (t : TransferFn) :
    rgbStandard_of_pair (rgbSpace_of_pair p w) t = rgbStandard_of_triple p w t ∧
    (rgbSpace_of_pair p w).primaries = p ∧
    (rgbSpace_of_pair p w).whitePoint = w ∧
    (rgbStandard_of_triple p w t).space = rgbSpace_of_pair p w ∧
    (rgbStandard_of_triple p w t).transferFn = t ∧
    rgbStandard_of_triple p w t = RgbStandard.mk (RgbSpace.mk p w) t :=
  ⟨rfl, rfl, rfl, rfl, rfl, rfl⟩

/-- C5: converting an 8-bit component value to a floating component and
back yields exactly the original value, and the narrowing conversion is
round-to-nearest: the scaled source differs from the produced integer by at
most one half. -/
theorem format_roundtrip_u8 :
    (∀ v : ℕ, v ≤ 255 → float_to_u8 (u8_to_float (v : ℤ)) = (v : ℤ)) ∧
    ∀ x : ℝ, |x * 255 - (float_to_u8 x : ℝ)| ≤ 1 / 2 := by
  constructor
  · intro v _
    unfold float_to_u8 u8_to_float
    rw [div_mul_cancel₀ _ (by norm_num : (255 : ℝ) ≠ 0)]
    exact round_intCast _
  · intro x
    simpa [float_to_u8] using abs_sub_round (x * 255)

/-- Witness for C5 at the concrete component value 194. -/
theorem format_roundtrip_u8_witness :
    float_to_u8 (u8_to_float ((194 : ℕ) : ℤ)) = ((194 : ℕ) : ℤ) :=
  format_roundtrip_u8.1 194 (by norm_num)

/-- C7: unpacking the packed integer recovers the original channel values
bit-exactly, for every supported channel order, for quadruples and for
triples. -/
theorem packed_roundtrip (o : RgbChannels) (r g b a : ℕ)
    (hr : r < 256) (hg : g < 256) (hb : b < 256) (ha : a < 256) :
    unpack4 o (pack4 o r g b a) = (r, g, b, a) ∧
    unpack_rgb o (pack_rgb o r g b) = (r, g, b) := by
  cases o <;>
    simp only [pack4, unpack4, pack_rgb, unpack_rgb, Prod.mk.injEq] <;>
    omega

/-- Witness for C7 at the concrete channels (1, 2, 3, 4) in RGBA order. -/
theorem packed_roundtrip_witness :
    unpack4 RgbChannels.rgba (pack4 RgbChannels.rgba 1 2 3 4) = (1, 2, 3, 4) ∧
    unpack_rgb RgbChannels.rgba (pack_rgb RgbChannels.rgba 1 2 3) = (1, 2, 3) :=
  packed_roundtrip RgbChannels.rgba 1 2 3 4 (by norm_num) (by norm_num)
    (by norm_num) (by norm_num)

/-- C9: every operation of the conversion core is a total function over its
numeric domain: for every input it produces exactly one numeric result. -/
theorem conversions_total (x : ℝ) (tf : TransferFn) (c : Rgb ℝ)
    (ca : Rgba ℝ) :
    (∃! y, srgb_encode x = y) ∧ (∃! y, srgb_decode x = y) ∧
    (∃! y, gamma_encode x = y) ∧ (∃! y, gamma_decode x = y) ∧
    (∃! v, float_to_u8 x = v) ∧ (∃! y, float_to_float x = y) ∧
    (∃! d, Rgb.from_linear tf c = d) ∧ (∃! d, Rgb.into_linear tf c = d) ∧
    (∃! d, Rgb.into_format_u8 c = d) ∧
    (∃! d, srgb_from_linSrgb c = d) ∧ (∃! d, linSrgb_from_srgb c = d) ∧
    (∃! d, srgba_from_linSrgba ca = d) ∧ (∃! d, linSrgba_from_srgba ca = d) :=
  ⟨⟨_, rfl, fun _ h => h.symm⟩, ⟨_, rfl, fun _ h => h.symm⟩,
    ⟨_, rfl, fun _ h => h.symm⟩, ⟨_, rfl, fun _ h => h.symm⟩,
    ⟨_, rfl, fun _ h => h.symm⟩, ⟨_, rfl, fun _ h => h.symm⟩,
    ⟨_, rfl, fun _ h => h.symm⟩, ⟨_, rfl, fun _ h => h.symm⟩,
    ⟨_, rfl, fun _ h => h.symm⟩, ⟨_, rfl, fun _ h => h.symm⟩,
    ⟨_, rfl, fun _ h => h.symm⟩, ⟨_, rfl, fun _ h => h.symm⟩,
    ⟨_, rfl, fun _ h => h.symm⟩⟩

/-- C10: converting an alpha-less colour into an alpha-carrying variant
fills alpha with the component maximum (fully opaque) and leaves the colour
components equal to those of the corresponding alpha-less conversion. -/
theorem rgba_from_rgb_max_alpha (c : Rgb ℝ) :
    (srgba_from_linSrgb c).alpha = 1 ∧
    colorPart (srgba_from_linSrgb c) = srgb_from_linSrgb c ∧
    (linSrgba_from_srgb c).alpha = 1 ∧
    colorPart (linSrgba_from_srgb c) = linSrgb_from_srgb c :=
  ⟨rfl, rfl, rfl, rfl⟩

/-- C6: the readme colour Srgb(1.0, 0.76, 0.27) survives `into_linear` then
`from_linear` within 1e-6 per component (here in fact exactly), and
`into_format` to the 8-bit component type yields exactly (255, 194, 69)
under round-to-nearest scaling by 255. -/
theorem readme_scenario :
    |(Rgb.from_linear srgbTransfer
        (Rgb.into_linear srgbTransfer readme_rgb)).red - readme_rgb.red| ≤
      1e-6 ∧
    |(Rgb.from_linear srgbTransfer
        (Rgb.into_linear srgbTransfer readme_rgb)).green - readme_rgb.green| ≤
      1e-6 ∧
    |(Rgb.from_linear srgbTransfer
        (Rgb.into_linear srgbTransfer readme_rgb)).blue - readme_rgb.blue| ≤
      1e-6 ∧
    Rgb.into_format_u8 readme_rgb = ⟨255, 194, 69⟩ := by
  have h1 : srgb_encode (srgb_decode 1) = 1 :=
    srgb_encode_decode_exact (by norm_num)
  have h2 : srgb_encode (srgb_decode 0.76) = 0.76 :=
    srgb_encode_decode_exact (by norm_num)
  have h3 : srgb_encode (srgb_decode 0.27) = 0.27 :=
    srgb_encode_decode_exact (by norm_num)
  refine ⟨?_, ?_, ?_, ?_⟩
  · simp only [readme_rgb, Rgb.from_linear, Rgb.into_linear, Rgb.mapc,
      srgbTransfer]
    rw [h1, sub_self, abs_zero]
    norm_num
  · simp only [readme_rgb, Rgb.from_linear, Rgb.into_linear, Rgb.mapc,
      srgbTransfer]
    rw [h2, sub_self, abs_zero]
    norm_num
  · simp only [readme_rgb, Rgb.from_linear, Rgb.into_linear, Rgb.mapc,
      srgbTransfer]
    rw [h3, sub_self, abs_zero]
    norm_num
  · simp only [readme_rgb, Rgb.into_format_u8, Rgb.mapc, float_to_u8,
      Rgb.mk.injEq]
    refine ⟨?_, ?_, ?_⟩ <;> rw [round_eq] <;> norm_num

/-- C8: no conversion clamps an over-range value: float-to-float format
conversion is the identity, float-to-u8 format conversion preserves the
relative magnitude stored/255 to within the rounding half-step, and every
transfer function direction maps a value above 1 to a value above 1. -/
theorem no_implicit_clamp (x : ℝ) (hx : 1 < x) :
    float_to_float x = x ∧
    |(float_to_u8 x : ℝ) / 255 - x| ≤ 1 / 510 ∧
    1 < srgb_encode x ∧ 1 < srgb_decode x ∧
    1 < gamma_encode x ∧ 1 < gamma_decode x := by
  have hx0 : (0 : ℝ) < x := by linarith
  refine ⟨rfl, ?_, ?_, ?_, ?_, ?_⟩
  · have h := abs_sub_round (x * 255)
    have e1 : (float_to_u8 x : ℝ) / 255 - x =
        ((float_to_u8 x : ℝ) - x * 255) / 255 := by ring
    rw [e1, abs_div, abs_of_pos (by norm_num : (0 : ℝ) < 255), abs_sub_comm]
    unfold float_to_u8
    rw [div_le_div_iff₀ (by norm_num) (by norm_num)]
    linarith
  · have hxb : ¬x ≤ 0.0031308 := not_le.mpr (by linarith)
    unfold srgb_encode
    rw [if_neg hxb]
    have ht : 1 < x ^ ((1 : ℝ) / 2.4) :=
      (Real.one_lt_rpow_iff_of_pos hx0).mpr (Or.inl ⟨hx, by norm_num⟩)
    linarith
  · have hxb : ¬x ≤ 0.04045 := not_le.mpr (by linarith)
    unfold srgb_decode
    rw [if_neg hxb]
    have hu : 1 < (x + 0.055) / 1.055 := by
      rw [lt_div_iff₀ (by norm_num : (0 : ℝ) < 1.055)]
      linarith
    exact (Real.one_lt_rpow_iff_of_pos (by linarith)).mpr
      (Or.inl ⟨hu, by norm_num⟩)
  · unfold gamma_encode
    exact (Real.one_lt_rpow_iff_of_pos hx0).mpr (Or.inl ⟨hx, by norm_num⟩)
  · unfold gamma_decode
    exact (Real.one_lt_rpow_iff_of_pos hx0).mpr (Or.inl ⟨hx, by norm_num⟩)

/-- Witness for C8 at the concrete over-range input 2. -/
theorem no_implicit_clamp_witness :
    float_to_float 2 = 2 ∧
    |(float_to_u8 2 : ℝ) / 255 - 2| ≤ 1 / 510 ∧
    1 < srgb_encode 2 ∧ 1 < srgb_decode 2 ∧
    1 < gamma_encode 2 ∧ 1 < gamma_decode 2 :=
  no_implicit_clamp 2 (by norm_num)

end Palette

end
